import Mathlib

/-! Shallow embedding of the `server` package (route registry, named-route
reverse lookup, group mounting, request context and error dispatch) and
proofs about it.

Strings are modelled as `List Char` (`GoStr`).  Go's `strings.ToLower`
is modelled by `Char.toLower`, which agrees with it on ASCII input; the
route names and patterns of interest are ASCII.
-/

set_option autoImplicit false

abbrev GoStr := List Char

def strL (s : String) : GoStr := s.toList

def toLowerStr (s : GoStr) : GoStr := s.map Char.toLower

/-- First-match lookup in an association list.  Insertions cons to the
front, so the most recent insertion wins, matching Go map semantics for
`m[k] = v` followed by `m[k]`. -/
def lookupStr (k : GoStr) : List (GoStr × GoStr) → Option GoStr
  | [] => none
  | (k', v) :: rest => if k' = k then some v else lookupStr k rest

/-- Fuel-driven scan for `stringsReplaceAll`; every step consumes at
least one character, so fuel equal to the string's length is never
exhausted. -/
def replaceAllFuel (pat rep : GoStr) : Nat → GoStr → GoStr
  | _, [] => []
  | 0, s => s
  | fuel + 1, c :: rest =>
    if 0 < pat.length ∧ pat.isPrefixOf (c :: rest) then
      rep ++ replaceAllFuel pat rep fuel (rest.drop (pat.length - 1))
    else
      c :: replaceAllFuel pat rep fuel rest

/-- Go `strings.ReplaceAll(s, old, new)` for a non-empty `old`: scan left
to right, replacing non-overlapping occurrences and never rescanning
replaced text.  All call sites in the source pass a non-empty pattern
(`"{" + key + "}"`); for an empty pattern this model returns `s`
unchanged. -/
def stringsReplaceAll (pat rep s : GoStr) : GoStr :=
  replaceAllFuel pat rep s.length s

/-! The pattern parser

`PatternParts` applies the anchored regular expression
`^(?:(\w+)\s+)?([^/ ]+)?(/.*)?$` and returns the three captured groups,
or three empty strings when the pattern does not match.

The regex is unambiguous enough to be computed deterministically:
* `\w` and `\s` are disjoint, so inside `(?:(\w+)\s+)?` the `\w+` run is
  forced to be the maximal word-character prefix, and shrinking the
  greedy `\s+` only prepends whitespace to what the rest of the pattern
  must consume, which can never turn a failure into a success (the extra
  remainders start with whitespace, which neither `(/.*)?$` nor the end
  anchor accepts, and `[^/ ]+` absorbs it back to the same remainders).
* `([^/ ]+)?` must likewise be the maximal run of characters other than
  `/` and space: shrinking it exposes characters of that same run, which
  `(/.*)?$` rejects.
* `(/.*)?$` accepts exactly: the empty remainder, or a remainder that
  starts with `/` and contains no newline (`.` does not match `\n` and
  `$` only matches at the end of the text).
-/

/-- RE2 `\w`: `[0-9A-Za-z_]`. -/
def isWordChar (c : Char) : Bool := c.isAlphanum || c = '_'

/-- RE2 `\s`: `[\t\n\f\r ]`. -/
def isSpaceChar (c : Char) : Bool :=
  c = ' ' || c = '\t' || c = '\n' || c = '\x0c' || c = '\r'

/-- The `(/.*)?$` tail: `some` capture on success, `none` when the
remainder cannot be consumed. -/
def tailPart (s : GoStr) : Option GoStr :=
  match s with
  | [] => some []
  | '/' :: _ => if '\n' ∈ s then none else some s
  | _ => none

/-- The `([^/ ]+)?(/.*)?$` suffix of the regex: returns the two captures
on success. -/
def hostAndPath (s : GoStr) : Option (GoStr × GoStr) :=
  let b := s.takeWhile (fun c => ¬(c = '/' ∨ c = ' '))
  let r := s.dropWhile (fun c => ¬(c = '/' ∨ c = ' '))
  match tailPart r with
  | some t => some (b, t)
  | none => none

def patternPartsNoMethod (s : GoStr) : GoStr × GoStr × GoStr :=
  match hostAndPath s with
  | some (h, p) => ([], h, p)
  | none => ([], [], [])

/-- Go `PatternParts(pattern)`: the `(method, name, path)` components. -/
def patternParts (s : GoStr) : GoStr × GoStr × GoStr :=
  let w := s.takeWhile isWordChar
  if w = [] then patternPartsNoMethod s
  else
    let afterW := s.dropWhile isWordChar
    let sp := afterW.takeWhile isSpaceChar
    if sp = [] then patternPartsNoMethod s
    else
      let rest := afterW.dropWhile isSpaceChar
      match hostAndPath rest with
      | some (h, p) => (w, h, p)
      | none => patternPartsNoMethod s

/-! Models of `path.Join` and `path.Clean`

`Group` registers named sub-routes under `path.Join(prefix, match)`.
`path.Clean` is modelled by the segment-stack algorithm that its
documentation specifies: collapse multiple slashes, drop `.` segments,
resolve `..` against a preceding segment, drop `..` at a rooted root,
drop trailing slashes, and return `.` for an empty result. -/

def splitSlashAux (cur : GoStr) : GoStr → List GoStr
  | [] => if cur = [] then [] else [cur.reverse]
  | c :: rest =>
    if c = '/' then
      if cur = [] then splitSlashAux [] rest
      else cur.reverse :: splitSlashAux [] rest
    else
      splitSlashAux (c :: cur) rest

def cleanSegs (rooted : Bool) (acc : List GoStr) : List GoStr → List GoStr
  | [] => acc.reverse
  | seg :: rest =>
    if seg = ['.'] then cleanSegs rooted acc rest
    else if seg = ['.', '.'] then
      match acc with
      | top :: acc' =>
        if top = ['.', '.'] then cleanSegs rooted (seg :: acc) rest
        else cleanSegs rooted acc' rest
      | [] =>
        if rooted then cleanSegs rooted [] rest
        else cleanSegs rooted [seg] rest
    else cleanSegs rooted (seg :: acc) rest

def intercalateSlash : List GoStr → GoStr
  | [] => []
  | [s] => s
  | s :: rest => s ++ '/' :: intercalateSlash rest

def pathClean (p : GoStr) : GoStr :=
  if p = [] then ['.']
  else
    let rooted := p.head? = some '/'
    let segs := cleanSegs rooted [] (splitSlashAux [] p)
    let out := (if rooted then ['/'] else []) ++ intercalateSlash segs
    if out = [] then ['.'] else out

/-- Go `path.Join(a, b)`: empty elements are skipped, the rest joined with
`/` and cleaned; all-empty input yields the empty string. -/
def pathJoin (a b : GoStr) : GoStr :=
  if a = [] ∧ b = [] then []
  else if a = [] then pathClean b
  else pathClean (a ++ '/' :: b)

/-! The route registry (`Server`)

Embeds the canonical variant of the registry: `Route`, `Server`,
`Init`, `Handle`, `Route()` (mount), `Group`, `addRouteName` and
`RouteName`.  Handlers are opaque `http.Handler` values; the wrappers
the registry builds around them (`StripPrefix`, middleware chains,
`ServeMux` trees, the public file server) are kept structurally.
Middleware are identified by opaque ids.  Log output is modelled as an
accumulated trace of messages. -/

inductive GoHandler where
  | fn (id : Nat)
  | strip (pre : GoStr) (h : GoHandler)
  | chained (mws : List Nat) (h : GoHandler)
  | muxTree (entries : List (GoStr × GoHandler))
  | fileServer (folder : GoStr)
deriving Repr

structure GoRoute where
  Match : GoStr
  Handler : GoHandler
  Name : GoStr
deriving Repr

structure Server where
  routes : List GoRoute
  routeNames : List (GoStr × GoStr)
  routeMounted : Bool
  Middleware : List Nat
  Public : GoStr
  mux : List (GoStr × GoHandler)
  logs : List GoStr
deriving Repr

/-- Go `Init(options)` with the given routes: fresh mux, empty name index,
not yet mounted. -/
def Server.init (rs : List GoRoute) : Server :=
  { routes := rs, routeNames := [], routeMounted := false,
    Middleware := [], Public := [], mux := [], logs := [] }

/-- Go `Server.addRouteName(name, pattern)`: index `host + path` of the
parsed pattern under the lower-cased name, or log a warning when both
parts are empty. -/
def Server.addRouteName (s : Server) (name pattern : GoStr) : Server :=
  let mhp := patternParts pattern
  if mhp.2.1 = [] ∧ mhp.2.2 = [] then
    { s with logs := s.logs ++ [strL "route name not added"] }
  else
    { s with routeNames := (toLowerStr name, mhp.2.1 ++ mhp.2.2) :: s.routeNames }

/-- Go `Server.Handle(pattern, handler, opts)` with the option callbacks
already evaluated to a name and a per-route middleware list. -/
def Server.handle (s : Server) (pattern : GoStr) (handler : GoHandler)
    (name : GoStr) (mws : List Nat) : Server :=
  if s.routeMounted then
    { s with logs := s.logs ++ [strL "routes already mounted"] }
  else
    let handler := if 0 < mws.length then GoHandler.chained mws handler else handler
    { s with routes := s.routes ++ [{ Match := pattern, Handler := handler, Name := name }] }

def mountStep (acc : Server) (r : GoRoute) : Server :=
  if r.Name = [] then acc else acc.addRouteName r.Name r.Match

/-- Go `Server.Route()` (mount): idempotent; registers the public file
server and the root tree on the mux, indexes every named route, and
sets `routeMounted`. -/
def Server.route (s : Server) : Server :=
  if s.routeMounted then s
  else
    let pubFolder := if s.Public = [] then strL "./public" else s.Public
    let s1 := { s with
      mux := s.mux ++ [(strL "/public/",
        GoHandler.strip (strL "/public") (GoHandler.fileServer pubFolder))] }
    let s2 := s.routes.foldl mountStep s1
    { s2 with
      mux := s2.mux ++ [(strL "/",
        GoHandler.chained s.Middleware
          (GoHandler.muxTree (s.routes.map (fun r => (r.Match, r.Handler)))))],
      routeMounted := true }

/-- The substitution loop of `RouteName`: consume flattened key/value
pairs, replacing every `{key}` in the path. The list has even length at
every call site (odd inputs are balanced first). -/
def substPairs : List GoStr → GoStr → GoStr
  | k :: v :: rest, route =>
    substPairs rest (stringsReplaceAll ('{' :: k ++ ['}']) v route)
  | _, route => route

/-- Go `Server.RouteName(name, params...)`: case-insensitive lookup,
empty string when unknown, odd parameter lists balanced with one empty
string. -/
def Server.RouteName (s : Server) (name : GoStr) (params : List GoStr) : GoStr :=
  match lookupStr (toLowerStr name) s.routeNames with
  | none => []
  | some route =>
    if 0 < params.length then
      let params := if params.length % 2 ≠ 0 then params ++ [[]] else params
      substPairs params route
    else route

/-- The panic message of `Group`; `%q` is modelled as plain double
quoting (the patterns of interest need no escaping). -/
def groupPanicMsg (pattern : GoStr) : GoStr :=
  '"' :: pattern ++ '"' :: []

def groupNameStep (pattern name : GoStr) (acc : Server) (r : GoRoute) : Server :=
  if r.Name = [] then acc
  else acc.addRouteName (name ++ '/' :: r.Name) (pathJoin pattern r.Match)

/-- Go `Server.Group(pattern, name, fn)`, with `fn` already evaluated: the
sub-registry it built is passed as `sub`.  Returns the parent state
together with `some panicMessage` when the call panics; the state
captures the mutations performed before the panic was raised (the
parent is a pointer in the source, so they persist). -/
def Server.group (s : Server) (pattern name : GoStr) (sub : Server) :
    Server × Option GoStr :=
  let grpEntries := sub.routes.map (fun r => (r.Match, r.Handler))
  let s1 := sub.routes.foldl (groupNameStep pattern name) s
  let hasNamedRoutes := sub.routes.any (fun r => ¬ r.Name.isEmpty)
  if hasNamedRoutes ∧ name = [] then
    (s1, some (strL "group(" ++ groupPanicMsg pattern ++
      strL ") has named routes but no group name was provided"))
  else
    let pattern' := if pattern.getLast? = some '/' then pattern else pattern ++ ['/']
    let sPattern := pattern'.dropLast
    (s1.handle pattern'
      (GoHandler.strip sPattern
        (GoHandler.chained sub.Middleware (GoHandler.muxTree grpEntries)))
      [] [], none)

/-! The request context (`HandlerContext`) and error dispatch

Embeds `NewContext`, `writeContentType`, `JSON`, `Render`, `RequestID`
and `Error` from `context.go`, and the handler adapter `ServeHTTP` from
the canonical variant in `mux.go`.

The response writer is modelled as a header map plus an ordered trace
of events (status-line writes, body writes, HTMX trigger headers).  The
template collaborator is a function from render options to either an
error message or rendered bytes.  `any` values are modelled by `GoVal`;
Go `error` values by `GoErr`. -/

inductive GoErr where
  | rendererNotProvided
  | external (msg : GoStr)
  | wrapped (pre : GoStr) (inner : GoErr)
deriving Repr

/-- Go `err.Error()`. `fmt.Errorf("p: %w", e)` renders as `"p: " + e.Error()`. -/
def GoErr.text : GoErr → GoStr
  | .rendererNotProvided => strL "templates renderer not provided"
  | .external m => m
  | .wrapped pre inner => pre ++ inner.text

inductive GoVal where
  | nilv
  | str (s : GoStr)
  | intv (i : Int)
  | errv (e : GoErr)
  | arr (vs : List GoVal)
deriving Repr

/-- Go `fmt.Sprintf("%d", i)`. -/
def intDecimal (i : Int) : GoStr :=
  if i < 0 then '-' :: Nat.toDigits 10 (-i).toNat else Nat.toDigits 10 i.toNat

mutual

/-- Go `fmt.Sprintf("%v", v)` for the value shapes that occur.  Only the
string, integer and error cases are exercised by the claims; composite
values get a bracketed rendering. -/
def formatV : GoVal → GoStr
  | .nilv => strL "<nil>"
  | .str s => s
  | .intv i => intDecimal i
  | .errv e => e.text
  | .arr vs => '[' :: intercalateSlash (formatVList vs) ++ [']']

def formatVList : List GoVal → List GoStr
  | [] => []
  | v :: rest => formatV v :: formatVList rest

end

/-- Go `errorPageCtxArg`. -/
structure CtxArg where
  Key : GoStr
  Value : GoVal
deriving Repr

/-- Go `errorPageCtx`. -/
structure ErrorPageCtx where
  Msg : GoStr
  Args : List CtxArg
deriving Repr

inductive RenderData where
  | nodata
  | errPage (c : ErrorPageCtx)
  | val (v : GoVal)
deriving Repr

/-- Go `RenderOpt`. -/
structure RenderOpt where
  Layout : GoStr := []
  Template : GoStr := []
  RenderString : Bool := false
  Others : List GoStr := []
  Data : RenderData := .nodata
  NotDone : Bool := false
deriving Repr

/-- Go `JSONResponse`.  `Error` is `map[string]any`; `none` is the nil map
and `some` a non-nil map as an association list in insertion order. -/
structure JSONResponse where
  Status : Int
  Data : GoVal := .nilv
  ErrorType : GoStr := []
  Error : Option (List (GoStr × GoVal)) := none
deriving Repr

def ContentTypeJSON : GoStr := strL "application/json"
def ContentTypeHTML : GoStr := strL "text/html; charset=utf-8"
def ContentTypeText : GoStr := strL "text/plain; charset=utf-8"
def ErrorTypeServer : GoStr := strL "server"
def ErrorTypeApplication : GoStr := strL "application"
def HeaderContentType : GoStr := strL "Content-Type"

inductive BodyChunk where
  | raw (bytes : GoStr)
  | jsonOf (r : JSONResponse)
deriving Repr

inductive RespEvent where
  | writeHeader (code : Int)
  | body (chunk : BodyChunk)
  | hxTriggerAfterSwap (eventName : GoStr) (code : Int) (msg : GoStr) (args : List CtxArg)
deriving Repr

/-- The external template collaborator: either fails with a message or
produces rendered bytes. -/
abbrev RendererFn := RenderOpt → Except GoStr GoStr

structure HandlerContext where
  /-- Go `r.Header.Get("Content-Type")`. -/
  reqContentType : GoStr
  /-- Go `c.HTMX().IsHxRequest()` (the go-htmx collaborator's view of the
  request headers). -/
  hxRequest : Bool
  /-- The `requestIDKey` context value, when the middleware ran. -/
  requestID : Option GoStr
  /-- Go `c.srv.templateMgr`; `c.srv` itself is always non-nil for a
  context built by `NewContext` (which otherwise panics, see
  `NewContext` below). -/
  templateMgr : Option RendererFn
  errSet : Bool
  respHeaders : List (GoStr × GoStr)
  respEvents : List RespEvent
  logs : List GoStr

def getHeader (hs : List (GoStr × GoStr)) (k : GoStr) : GoStr :=
  (lookupStr k hs).getD []

def HandlerContext.writeContentType (c : HandlerContext) (value : GoStr) :
    HandlerContext :=
  if getHeader c.respHeaders HeaderContentType = [] then
    { c with respHeaders := (HeaderContentType, value) :: c.respHeaders }
  else c

/-- Go `HandlerContext.JSON`: content type, status line, `ErrorType`
defaulting, then the encoded envelope.  Encoding the envelope is
modelled as always succeeding. -/
def HandlerContext.json (c : HandlerContext) (status : Int)
    (data : JSONResponse) : HandlerContext × Option GoErr :=
  let c := c.writeContentType ContentTypeJSON
  let c := { c with respEvents := c.respEvents ++ [RespEvent.writeHeader status] }
  let data :=
    if data.Error.isSome ∧ data.ErrorType = [] then
      { data with ErrorType := if 500 ≤ status then ErrorTypeServer else ErrorTypeApplication }
    else data
  ({ c with respEvents := c.respEvents ++ [RespEvent.body (BodyChunk.jsonOf data)] }, none)

/-- Go `HandlerContext.Render`: render to a buffer first; on success and
unless `NotDone`, write the content type and the status line, then copy
the buffer. -/
def HandlerContext.render (c : HandlerContext) (status : Int)
    (opt : RenderOpt) : HandlerContext × Option GoErr :=
  match c.templateMgr with
  | none => (c, some .rendererNotProvided)
  | some mgr =>
    match mgr opt with
    | .error e => (c, some (.external e))
    | .ok out =>
      let c :=
        if opt.NotDone then c
        else
          let c := c.writeContentType ContentTypeHTML
          { c with respEvents := c.respEvents ++ [RespEvent.writeHeader status] }
      ({ c with respEvents := c.respEvents ++ [RespEvent.body (BodyChunk.raw out)] }, none)

/-- Go `HandlerContext.RequestID`: the ambient id when present and
non-empty, else a debug log and the empty string. -/
def HandlerContext.requestIDVal (c : HandlerContext) : HandlerContext × GoStr :=
  match c.requestID with
  | some id => if id ≠ [] then (c, id)
      else ({ c with logs := c.logs ++ [strL "RequestID not found in context"] }, [])
  | none => ({ c with logs := c.logs ++ [strL "RequestID not found in context"] }, [])

/-- The normalized display message of `Error`'s `msg` argument and
whether it was an `error` value. -/
def errMsgString (msg : GoVal) : GoStr × Bool :=
  match msg with
  | .errv e => (e.text, true)
  | m => (formatV m, false)

def encodeArgs (args : List CtxArg) : GoVal :=
  .arr (args.map (fun a => .arr [.str a.Key, a.Value]))

/-- The JSON error envelope `Error` builds for JSON requests. -/
def jsonErrorEnvelope (statusCode : Int) (msgStr : GoStr) (args : List CtxArg)
    (reqID : GoStr) : JSONResponse :=
  { Status := statusCode,
    Error := some [(strL "msg", .str msgStr), (strL "args", encodeArgs args),
      (strL "requestID", .str reqID)],
    ErrorType := ErrorTypeServer }

/-- Go `HandlerContext.Error(statusCode, msg, args...)`: the error
dispatcher of `context.go`. -/
def HandlerContext.error (c : HandlerContext) (statusCode : Int)
    (msg : GoVal) (args : List CtxArg) : HandlerContext × Option GoErr :=
  if c.errSet then
    ({ c with logs := c.logs ++ [strL "ctx.Error() ctx.isSet=true"] }, none)
  else
    let c := { c with errSet := true }
    let norm := errMsgString msg
    let errCtx : ErrorPageCtx := { Msg := norm.1, Args := args }
    let msgErr : Option GoErr := match msg with | .errv e => some e | _ => none
    if c.reqContentType = ContentTypeJSON then
      let cr := c.requestIDVal
      cr.1.json statusCode (jsonErrorEnvelope statusCode errCtx.Msg errCtx.Args cr.2)
    else
      let tplName := intDecimal statusCode ++ '.' :: strL "page"
      if c.hxRequest then
        let c := { c with respEvents := c.respEvents ++
          [RespEvent.hxTriggerAfterSwap (strL "serverCtxError") statusCode errCtx.Msg errCtx.Args] }
        let c := { c with respEvents := c.respEvents ++ [RespEvent.writeHeader statusCode] }
        (c, msgErr)
      else
        match c.render statusCode { Template := tplName, Data := .errPage errCtx } with
        | (c', some err) =>
          ({ c' with logs := c'.logs ++ [strL "failed to render error page"] },
            some (.wrapped (strL "failed to render error page: ") err))
        | (c', none) =>
          let c'' := { c' with respEvents := c'.respEvents ++ [RespEvent.writeHeader statusCode] }
          (c'', msgErr)

/-! The handler adapter (`HandlerFunc.ServeHTTP`) -/

/-- The ambient server value stored in the request context. -/
structure SrvInfo where
  templateMgr : Option RendererFn
  errorFunc : Option (HandlerContext → GoErr → HandlerContext)

/-- What `NewContext` reads from the request/response pair. -/
structure ReqInfo where
  contentType : GoStr
  hxRequest : Bool
  requestID : Option GoStr
  /-- Go `r.Context().Value(CtxKeyServer)`: `none` when no server identity
  was injected into the request's context. -/
  ambientServer : Option SrvInfo

/-- Go `NewContext(w, r)`.  The server identity is recovered by the
unchecked type assertion `r.Context().Value(CtxKeyServer).(*Server)`:
when the value is absent the assertion panics, which is modelled by the
`Except.error` case carrying the runtime's panic message.  `NewContext`
never returns a nil context. -/
def NewContext (req : ReqInfo) : Except GoStr HandlerContext :=
  match req.ambientServer with
  | none => .error (strL "interface conversion: interface \x7b\x7d is nil, not *server.Server")
  | some srv =>
    .ok { reqContentType := req.contentType, hxRequest := req.hxRequest,
          requestID := req.requestID, templateMgr := srv.templateMgr,
          errSet := false, respHeaders := [], respEvents := [], logs := [] }

/-- Go `http.Error(w, msg, code)`: plain-text content type, status line,
message plus newline. -/
def httpError (c : HandlerContext) (msg : GoStr) (code : Int) : HandlerContext :=
  let c := { c with respHeaders := (HeaderContentType, ContentTypeText) :: c.respHeaders }
  { c with respEvents := c.respEvents ++
      [RespEvent.writeHeader code, RespEvent.body (BodyChunk.raw (msg ++ ['\n']))] }

/-- The observable behavior of a user handler on a context: it may
return normally (with a nil or non-nil error) or panic. -/
inductive HandlerResult where
  | ret (e : Option GoErr)
  | panics (payload : GoStr)

inductive ServeOutcome where
  | completed (c : HandlerContext)
  /-- a panic propagated out of `ServeHTTP` uncaught. -/
  | panicEscaped (payload : GoStr)

/-- Go `HandlerFunc.ServeHTTP` (canonical variant): build the context,
install the deferred panic guard, run the handler, and route errors and
recovered panics through `errorFunc` or a bare 500.  The guard is
installed only after `NewContext` returns, so a panic inside
`NewContext` escapes; the `ctx == nil` check is unreachable because
`NewContext` never returns nil. -/
def serveHTTP (h : HandlerContext → HandlerContext × HandlerResult)
    (req : ReqInfo) : ServeOutcome :=
  match NewContext req with
  | .error payload => .panicEscaped payload
  | .ok ctx =>
    match h ctx with
    | (c, .ret none) => .completed c
    | (c, .ret (some e)) =>
      let c := { c with logs := c.logs ++ [strL "internal server error"] }
      match req.ambientServer.bind (fun s => s.errorFunc) with
      | some ef => .completed (ef c e)
      | none => .completed (httpError c e.text 500)
    | (c, .panics payload) =>
      let c := { c with logs := c.logs ++ [strL "panic recovered"] }
      match req.ambientServer.bind (fun s => s.errorFunc) with
      | some ef => .completed (ef c (.external (strL "panic: " ++ payload)))
      | none => .completed (httpError c (strL "Internal Server Error") 500)

/-! Claims -/

/-- Number of status-line writes (`WriteHeader` calls) in a response
trace. -/
def countStatusWrites (evs : List RespEvent) : Nat :=
  evs.countP (fun e => match e with | .writeHeader _ => true | _ => false)

/-- A request that negotiates the full-page template path: not JSON,
not HX, with a template collaborator that renders successfully. -/
def fullPageCtx : HandlerContext :=
  { reqContentType := ContentTypeHTML, hxRequest := false, requestID := none,
    templateMgr := some (fun _ => .ok (strL "rendered error page")),
    errSet := false, respHeaders := [], respEvents := [], logs := [] }

/-- C1: on the full-page rendering path, a first `Error` call writes
the status line twice, not once: `Render` writes it (and the body), and
`Error` then writes it again.  This refutes "exactly one write of the
status line" for the full-page path. -/
theorem C1_fullpage_error_writes_status_line_twice :
    (fullPageCtx.error 500 (.str (strL "boom")) []).1.respEvents
      = [RespEvent.writeHeader 500,
         RespEvent.body (BodyChunk.raw (strL "rendered error page")),
         RespEvent.writeHeader 500]
    ∧ countStatusWrites ((fullPageCtx.error 500 (.str (strL "boom")) []).1.respEvents) = 2 := by
  exact ⟨rfl, rfl⟩

/-- A request whose ambient context carries no server identity. -/
def reqNoServer : ReqInfo :=
  { contentType := [], hxRequest := false, requestID := none, ambientServer := none }

/-- A handler that returns nil (it is never reached). -/
def nilHandler : HandlerContext → HandlerContext × HandlerResult :=
  fun c => (c, .ret none)

/-- C3: when the server identity is missing from the request context,
`NewContext`'s unchecked type assertion panics before the adapter's
deferred recover is installed, so the panic escapes `ServeHTTP`
uncaught instead of being logged and aborted. -/
theorem C3_missing_server_identity_panic_escapes_adapter :
    serveHTTP nilHandler reqNoServer
      = .panicEscaped (strL "interface conversion: interface \x7b\x7d is nil, not *server.Server") := by
  rfl

/-- C6: `Group` panics exactly when the builder registered at least one
named sub-route and the group name is empty; otherwise it returns
normally. -/
theorem C6_group_panics_iff_named_subroute_and_empty_name
    (s : Server) (pattern name : GoStr) (sub : Server) :
    ((s.group pattern name sub).2).isSome
      = (sub.routes.any (fun r => ¬ r.Name.isEmpty) && name.isEmpty) := by
  unfold Server.group
  by_cases hn : name = [] <;>
    cases hA : sub.routes.any (fun r => ¬ r.Name.isEmpty) <;>
    simp_all [List.isEmpty_iff]

/-- C7: registering a route after mount leaves the registry unchanged
apart from a logged warning: routes, name index, served mux table and
the mounted flag are all preserved. -/
theorem C7_handle_after_mount_is_noop
    (s : Server) (pattern : GoStr) (handler : GoHandler) (name : GoStr) (mws : List Nat) :
    (s.route).handle pattern handler name mws
      = { s.route with logs := (s.route).logs ++ [strL "routes already mounted"] } := by
  have hm : (s.route).routeMounted = true := by
    unfold Server.route
    split
    · next h => exact h
    · rfl
  simp [Server.handle, hm]

/-- The C9 scenario registry: `"GET /users/{id}/profile"` registered
under the name `"userProfile"`, then mounted. -/
def c9srv : Server :=
  ((Server.init []).handle (strL "GET /users/{id}/profile") (GoHandler.fn 0)
    (strL "userProfile") []).route

/-- C9: the pattern parser strips the leading method token when the
name is indexed, and `RouteName("userProfile", "id", "42")` substitutes
the `{id}` placeholder, yielding `"/users/42/profile"`. -/
theorem C9_userProfile_scenario :
    patternParts (strL "GET /users/{id}/profile")
        = (strL "GET", [], strL "/users/{id}/profile")
    ∧ c9srv.RouteName (strL "userProfile") [strL "id", strL "42"]
        = strL "/users/42/profile" := by
  exact ⟨rfl, rfl⟩

theorem writeContentType_errSet (c : HandlerContext) (v : GoStr) :
    (c.writeContentType v).errSet = c.errSet := by
  unfold HandlerContext.writeContentType
  split <;> rfl

theorem writeContentType_respEvents (c : HandlerContext) (v : GoStr) :
    (c.writeContentType v).respEvents = c.respEvents := by
  unfold HandlerContext.writeContentType
  split <;> rfl

theorem requestIDVal_fst_errSet (c : HandlerContext) :
    ((c.requestIDVal).1).errSet = c.errSet := by
  unfold HandlerContext.requestIDVal
  rcases c.requestID with _ | id
  · rfl
  · dsimp only
    split <;> rfl

theorem requestIDVal_fst_respEvents (c : HandlerContext) :
    ((c.requestIDVal).1).respEvents = c.respEvents := by
  unfold HandlerContext.requestIDVal
  rcases c.requestID with _ | id
  · rfl
  · dsimp only
    split <;> rfl

theorem requestIDVal_fst_respHeaders (c : HandlerContext) :
    ((c.requestIDVal).1).respHeaders = c.respHeaders := by
  unfold HandlerContext.requestIDVal
  rcases c.requestID with _ | id
  · rfl
  · dsimp only
    split <;> rfl

theorem json_fst_errSet (c : HandlerContext) (st : Int) (d : JSONResponse) :
    ((c.json st d).1).errSet = c.errSet := by
  simp only [HandlerContext.json]
  exact writeContentType_errSet c ContentTypeJSON

theorem render_fst_errSet (c : HandlerContext) (st : Int) (o : RenderOpt) :
    ((c.render st o).1).errSet = c.errSet := by
  unfold HandlerContext.render
  rcases c.templateMgr with _ | mgr
  · rfl
  · dsimp only
    rcases mgr o with e | out
    · rfl
    · dsimp only
      split
      · rfl
      · simp [writeContentType_errSet]

/-- C5: the error dispatcher is idempotent per request: once `errSet`
is true a further `Error` call changes no response header, writes no
status line or body, returns nil, and only logs; and any `Error` call
leaves the flag set, so the first invocation sets it. -/
theorem C5_error_idempotent (c : HandlerContext) (code : Int) (msg : GoVal)
    (args : List CtxArg) :
    ((c.error code msg args).1.errSet = true) ∧
    (c.errSet = true →
      (c.error code msg args).1.respEvents = c.respEvents ∧
      (c.error code msg args).1.respHeaders = c.respHeaders ∧
      (c.error code msg args).2 = none ∧
      (c.error code msg args).1.logs = c.logs ++ [strL "ctx.Error() ctx.isSet=true"]) := by
  constructor
  · by_cases h : c.errSet = true
    · simp [HandlerContext.error, h]
    · have h' : c.errSet = false := by simpa using h
      unfold HandlerContext.error
      rw [if_neg (by simp [h'])]
      dsimp only
      split
      · rw [json_fst_errSet, requestIDVal_fst_errSet]
      · split
        · rfl
        · split
          · next c' err heq =>
            have := render_fst_errSet
              { c with errSet := true } code
              { Template := intDecimal code ++ '.' :: strL "page",
                Data := .errPage { Msg := (errMsgString msg).1, Args := args } }
            rw [heq] at this
            exact this
          · next c' heq =>
            have := render_fst_errSet
              { c with errSet := true } code
              { Template := intDecimal code ++ '.' :: strL "page",
                Data := .errPage { Msg := (errMsgString msg).1, Args := args } }
            rw [heq] at this
            exact this
  · intro h
    simp [HandlerContext.error, h]

theorem requestIDVal_snd_mk (c : HandlerContext) (b : Bool) :
    (({ c with errSet := b } : HandlerContext).requestIDVal).2 = (c.requestIDVal).2 := by
  unfold HandlerContext.requestIDVal
  rcases c.requestID with _ | id
  · rfl
  · dsimp only
    split <;> rfl

/-- C4: for a first `Error` call on a request that declares the JSON
content type, the dispatcher appends exactly one status-line write and
the JSON envelope to the response: the envelope carries the status
code, `ErrorType = "server"` (whatever the code), and an error map with
the normalized message, the args and the request ID.  No template
render and no HX trigger event occurs on this path. -/
theorem C4_json_negotiation (c : HandlerContext) (code : Int) (msg : GoVal)
    (args : List CtxArg) (h1 : c.errSet = false)
    (h2 : c.reqContentType = ContentTypeJSON) :
    (c.error code msg args).1.respEvents
      = c.respEvents ++ [RespEvent.writeHeader code,
          RespEvent.body (BodyChunk.jsonOf
            (jsonErrorEnvelope code (errMsgString msg).1 args (c.requestIDVal).2))]
    ∧ (jsonErrorEnvelope code (errMsgString msg).1 args (c.requestIDVal).2).ErrorType
        = ErrorTypeServer
    ∧ (jsonErrorEnvelope code (errMsgString msg).1 args (c.requestIDVal).2).Status = code := by
  refine ⟨?_, rfl, rfl⟩
  unfold HandlerContext.error
  rw [if_neg (by simp [h1])]
  dsimp only
  rw [if_pos (show ({ c with errSet := true } : HandlerContext).reqContentType
        = ContentTypeJSON from h2)]
  unfold HandlerContext.json
  have hdata : ¬((jsonErrorEnvelope code (errMsgString msg).1 args
      (({ c with errSet := true } : HandlerContext).requestIDVal).2).Error.isSome
      ∧ (jsonErrorEnvelope code (errMsgString msg).1 args
      (({ c with errSet := true } : HandlerContext).requestIDVal).2).ErrorType = []) := by
    rintro ⟨-, habs⟩
    simp [jsonErrorEnvelope, ErrorTypeServer, strL] at habs
  rw [if_neg hdata]
  dsimp only
  rw [writeContentType_respEvents, requestIDVal_fst_respEvents]
  dsimp only
  rw [requestIDVal_snd_mk]
  simp

def c5ctx : HandlerContext :=
  { reqContentType := [], hxRequest := false, requestID := none,
    templateMgr := none, errSet := true,
    respHeaders := [], respEvents := [], logs := [] }

/-- C5 witness: a concrete context with the flag already set. -/
theorem C5_error_idempotent_witness :
    (c5ctx.error 503 (.str (strL "again")) []).1.errSet = true ∧
    (c5ctx.error 503 (.str (strL "again")) []).1.respEvents = c5ctx.respEvents ∧
    (c5ctx.error 503 (.str (strL "again")) []).2 = none :=
  ⟨(C5_error_idempotent c5ctx 503 (.str (strL "again")) []).1,
   ((C5_error_idempotent c5ctx 503 (.str (strL "again")) []).2 rfl).1,
   ((C5_error_idempotent c5ctx 503 (.str (strL "again")) []).2 rfl).2.2.1⟩

def c4ctx : HandlerContext :=
  { reqContentType := ContentTypeJSON, hxRequest := false,
    requestID := some (strL "rid-1"), templateMgr := none, errSet := false,
    respHeaders := [], respEvents := [], logs := [] }

/-- C4 witness: a concrete JSON-declared request with a 400 status
(`ErrorType` is still `"server"`). -/
theorem C4_json_negotiation_witness :
    (c4ctx.error 400 (.str (strL "oops"))
        [{ Key := strL "k", Value := .str (strL "v") }]).1.respEvents
      = c4ctx.respEvents ++ [RespEvent.writeHeader 400,
          RespEvent.body (BodyChunk.jsonOf
            (jsonErrorEnvelope 400 (errMsgString (.str (strL "oops"))).1
              [{ Key := strL "k", Value := .str (strL "v") }] (c4ctx.requestIDVal).2))]
    ∧ (jsonErrorEnvelope 400 (errMsgString (.str (strL "oops"))).1
        [{ Key := strL "k", Value := .str (strL "v") }] (c4ctx.requestIDVal).2).ErrorType
        = ErrorTypeServer
    ∧ (jsonErrorEnvelope 400 (errMsgString (.str (strL "oops"))).1
        [{ Key := strL "k", Value := .str (strL "v") }] (c4ctx.requestIDVal).2).Status = 400 :=
  C4_json_negotiation c4ctx 400 (.str (strL "oops"))
    [{ Key := strL "k", Value := .str (strL "v") }] rfl rfl

/-! Lemmas about the mount-time name index -/

/-- Indexing steps of the registry all have the shape "insert a
key/value pair derived from the route when a guard holds". -/
def consIf (P : GoRoute → Bool) (key val : GoRoute → GoStr)
    (m : List (GoStr × GoStr)) (r : GoRoute) : List (GoStr × GoStr) :=
  if P r then (key r, val r) :: m else m

theorem lookup_foldl_consIf_preserve (P : GoRoute → Bool)
    (key val : GoRoute → GoStr) (k v : GoStr) :
    ∀ (rs : List GoRoute) (m : List (GoStr × GoStr)),
      (∀ r' ∈ rs, P r' = true → key r' = k → val r' = v) →
      lookupStr k m = some v →
      lookupStr k (rs.foldl (consIf P key val) m) = some v
  | [], _, _, hm => hm
  | x :: rest, m, h, hm => by
    simp only [List.foldl_cons]
    apply lookup_foldl_consIf_preserve P key val k v rest
    · intro r' hr' hp hk
      exact h r' (List.mem_cons_of_mem _ hr') hp hk
    · unfold consIf
      split
      · next hp =>
        by_cases hk : key x = k
        · have hv : val x = v := h x (List.mem_cons_self _ _) hp hk
          simp [lookupStr, hk, hv]
        · simp [lookupStr, hk, hm]
      · exact hm

theorem lookup_foldl_consIf_of_mem (P : GoRoute → Bool)
    (key val : GoRoute → GoStr) :
    ∀ (rs : List GoRoute) (m : List (GoStr × GoStr)) (r : GoRoute),
      r ∈ rs → P r = true →
      (∀ r' ∈ rs, P r' = true → key r' = key r → val r' = val r) →
      lookupStr (key r) (rs.foldl (consIf P key val) m) = some (val r)
  | [], _, r, hmem, _, _ => absurd hmem (List.not_mem_nil r)
  | x :: rest, m, r, hmem, hp, huniq => by
    by_cases hr : r ∈ rest
    · simp only [List.foldl_cons]
      exact lookup_foldl_consIf_of_mem P key val rest _ r hr hp
        (fun r' h1 h2 h3 => huniq r' (List.mem_cons_of_mem _ h1) h2 h3)
    · have hx : r = x := by
        rcases List.mem_cons.mp hmem with h | h
        · exact h
        · exact absurd h hr
      subst hx
      simp only [List.foldl_cons]
      apply lookup_foldl_consIf_preserve P key val _ _ rest
      · intro r' h1 h2 h3
        exact huniq r' (List.mem_cons_of_mem _ h1) h2 h3
      · unfold consIf
        rw [if_pos hp]
        simp [lookupStr]

theorem lookup_foldl_consIf_of_absent (P : GoRoute → Bool)
    (key val : GoRoute → GoStr) :
    ∀ (rs : List GoRoute) (m : List (GoStr × GoStr)) (k : GoStr),
      (∀ r' ∈ rs, P r' = true → key r' ≠ k) →
      lookupStr k (rs.foldl (consIf P key val) m) = lookupStr k m
  | [], _, _, _ => rfl
  | x :: rest, m, k, h => by
    simp only [List.foldl_cons]
    rw [lookup_foldl_consIf_of_absent P key val rest _ k
      (fun r' h1 h2 => h r' (List.mem_cons_of_mem _ h1) h2)]
    unfold consIf
    split
    · next hp =>
      have hk : key x ≠ k := h x (List.mem_cons_self _ _) hp
      simp [lookupStr, hk]
    · rfl

/-- The value `addRouteName` stores for a pattern: host plus path of
its parse. -/
def nameVal (pattern : GoStr) : GoStr :=
  (patternParts pattern).2.1 ++ (patternParts pattern).2.2

def mountP (r : GoRoute) : Bool := !r.Name.isEmpty && !(nameVal r.Match).isEmpty
def mountKey (r : GoRoute) : GoStr := toLowerStr r.Name
def mountVal (r : GoRoute) : GoStr := nameVal r.Match

theorem mountStep_routeNames (acc : Server) (r : GoRoute) :
    (mountStep acc r).routeNames = consIf mountP mountKey mountVal acc.routeNames r := by
  unfold mountStep consIf Server.addRouteName mountP mountKey mountVal nameVal
  by_cases h1 : r.Name = []
  · simp [h1]
  · rw [if_neg h1]
    by_cases h2 : (patternParts r.Match).2.1 = [] ∧ (patternParts r.Match).2.2 = []
    · rw [if_pos h2]
      simp [List.isEmpty_iff, h1, h2.1, h2.2]
    · rw [if_neg h2]
      have hne : (patternParts r.Match).2.1 ++ (patternParts r.Match).2.2 ≠ [] := by
        intro habs
        exact h2 (List.append_eq_nil.mp habs)
      simp [List.isEmpty_iff, h1, hne]

theorem foldl_mountStep_routeNames :
    ∀ (rs : List GoRoute) (acc : Server),
      (rs.foldl mountStep acc).routeNames
        = rs.foldl (consIf mountP mountKey mountVal) acc.routeNames
  | [], _ => rfl
  | x :: rest, acc => by
    simp only [List.foldl_cons]
    rw [foldl_mountStep_routeNames rest, mountStep_routeNames]

theorem route_init_routeNames (rs : List GoRoute) :
    ((Server.init rs).route).routeNames
      = rs.foldl (consIf mountP mountKey mountVal) [] := by
  unfold Server.route
  rw [if_neg (by simp [Server.init])]
  dsimp only
  rw [show (Server.init rs).routes = rs from rfl]
  rw [foldl_mountStep_routeNames]
  rfl

/-- The C2 counterexample registry: a pattern with a host component,
registered under the name `"u"`, then mounted. -/
def c2srv : Server :=
  ((Server.init []).handle (strL "GET example.com/users") (GoHandler.fn 0)
    (strL "u") []).route

/-- C2 counterexample: the parser splits `"GET example.com/users"` into
method `GET`, host `example.com` and path `/users`, but `RouteName`
returns `"example.com/users"`, not the path with the host stripped. -/
theorem C2_host_not_stripped_counterexample :
    patternParts (strL "GET example.com/users")
        = (strL "GET", strL "example.com", strL "/users")
    ∧ c2srv.RouteName (strL "u") [] = strL "example.com/users"
    ∧ strL "example.com/users" ≠ strL "/users" :=
  ⟨rfl, rfl, by decide⟩

/-- C2 (amended): after mount, `RouteName(name)` with no parameters
returns the registered pattern's host and path components concatenated
— the method token is stripped but the host component is retained.
Lookup is case-insensitive in both the registered and the queried name,
and an unregistered name yields the empty string. -/
theorem C2_routeName_after_mount_amended (rs : List GoRoute) (q : GoStr) :
    (∀ r, r ∈ rs → r.Name ≠ [] → nameVal r.Match ≠ [] →
      (∀ r' ∈ rs, r'.Name ≠ [] → toLowerStr r'.Name = toLowerStr r.Name → r' = r) →
      toLowerStr q = toLowerStr r.Name →
      ((Server.init rs).route).RouteName q [] = nameVal r.Match)
    ∧ ((∀ r ∈ rs, r.Name ≠ [] → toLowerStr q ≠ toLowerStr r.Name) →
      ((Server.init rs).route).RouteName q [] = []) := by
  constructor
  · intro r hmem hname hval huniq hq
    unfold Server.RouteName
    rw [route_init_routeNames, hq]
    have hp : mountP r = true := by
      simp [mountP, List.isEmpty_iff, hname, hval]
    rw [show toLowerStr r.Name = mountKey r from rfl]
    rw [lookup_foldl_consIf_of_mem mountP mountKey mountVal rs [] r hmem hp ?_]
    · rfl
    · intro r' h1 h2 h3
      have hn' : r'.Name ≠ [] := by
        have := (Bool.and_eq_true _ _).mp h2 |>.1
        simpa [List.isEmpty_iff] using this
      rw [huniq r' h1 hn' h3]
  · intro habs
    unfold Server.RouteName
    rw [route_init_routeNames]
    rw [lookup_foldl_consIf_of_absent mountP mountKey mountVal rs [] (toLowerStr q) ?_]
    · rfl
    · intro r' h1 h2
      have hn' : r'.Name ≠ [] := by
        have := (Bool.and_eq_true _ _).mp h2 |>.1
        simpa [List.isEmpty_iff] using this
      intro hk
      exact habs r' h1 hn' hk.symm

def c2wRoute : GoRoute :=
  { Match := strL "GET /users", Handler := GoHandler.fn 0, Name := strL "Home" }

/-- C2 witness: a registered name looked up in a different case, and an
unknown name. -/
theorem C2_routeName_after_mount_amended_witness :
    ((Server.init [c2wRoute]).route).RouteName (strL "home") [] = nameVal c2wRoute.Match
    ∧ ((Server.init [c2wRoute]).route).RouteName (strL "bogus") [] = []
    ∧ nameVal (strL "GET /users") = strL "/users" := by
  refine ⟨?_, ?_, by decide⟩
  · exact (C2_routeName_after_mount_amended [c2wRoute] (strL "home")).1 c2wRoute
      (List.mem_singleton.mpr rfl) (by decide) (by decide)
      (fun r' h1 _ _ => List.mem_singleton.mp h1) (by decide)
  · exact (C2_routeName_after_mount_amended [c2wRoute] (strL "bogus")).2
      (fun r' h1 _ => by
        rw [List.mem_singleton.mp h1]
        decide)

theorem substPairs_append_pair (k v : GoStr) :
    ∀ (qs : List GoStr) (r : GoStr), qs.length % 2 = 0 →
      substPairs (qs ++ [k, v]) r
        = stringsReplaceAll ('{' :: k ++ ['}']) v (substPairs qs r)
  | [], _, _ => rfl
  | [_], _, h => by simp at h
  | a :: b :: qs', r, h => by
    simp only [List.cons_append]
    show substPairs (qs' ++ [k, v]) (stringsReplaceAll ('{' :: a ++ ['}']) b r) = _
    rw [substPairs_append_pair k v qs' _ (by simp only [List.length_cons] at h; omega)]
    rfl

/-- C8: when the parameter list of a `RouteName` call on a registered
name has odd length, one empty string is appended to balance it, so the
result is the even-length substitution and the final key's `{key}`
placeholder is replaced by the empty string; the call is total. -/
theorem C8_odd_params_balanced (s : Server) (name route : GoStr)
    (qs : List GoStr) (k : GoStr)
    (hfound : lookupStr (toLowerStr name) s.routeNames = some route)
    (heven : qs.length % 2 = 0) :
    s.RouteName name (qs ++ [k]) = s.RouteName name ((qs ++ [k]) ++ [[]])
    ∧ s.RouteName name (qs ++ [k])
        = stringsReplaceAll ('{' :: k ++ ['}']) [] (substPairs qs route) := by
  have hodd : (qs ++ [k]).length % 2 ≠ 0 := by
    simp only [List.length_append, List.length_cons, List.length_nil]
    omega
  have hodd' : ¬((qs ++ [k]) ++ [[]]).length % 2 ≠ 0 := by
    simp only [List.length_append, List.length_cons, List.length_nil]
    omega
  have hpos : 0 < (qs ++ [k]).length := by simp
  have hpos' : 0 < ((qs ++ [k]) ++ [[]]).length := by simp
  have hleft : s.RouteName name (qs ++ [k]) = substPairs ((qs ++ [k]) ++ [[]]) route := by
    unfold Server.RouteName
    rw [hfound]
    dsimp only
    rw [if_pos hpos, if_pos hodd]
  constructor
  · rw [hleft]
    unfold Server.RouteName
    rw [hfound]
    dsimp only
    rw [if_pos hpos', if_neg hodd']
  · rw [hleft, List.append_assoc]
    exact substPairs_append_pair k [] qs route heven

/-- The C8 witness registry: `"GET /a/{id}"` named `"x"`, mounted. -/
def c8srv : Server :=
  ((Server.init []).handle (strL "GET /a/{id}") (GoHandler.fn 0) (strL "x") []).route

/-- C8 witness: a one-element (odd) parameter list; `{id}` is replaced
by the empty string. -/
theorem C8_odd_params_balanced_witness :
    (c8srv.RouteName (strL "x") ([] ++ [strL "id"])
        = c8srv.RouteName (strL "x") (([] ++ [strL "id"]) ++ [[]])
      ∧ c8srv.RouteName (strL "x") ([] ++ [strL "id"])
        = stringsReplaceAll ('{' :: strL "id" ++ ['}']) [] (substPairs [] (strL "/a/{id}")))
    ∧ c8srv.RouteName (strL "x") [strL "id"] = strL "/a/" :=
  ⟨C8_odd_params_balanced c8srv (strL "x") (strL "/a/{id}") [] (strL "id") rfl rfl,
   by decide⟩

/-! Properties of `path.Clean` needed for `Group` indexing -/

theorem splitSlashAux_chars :
    ∀ (p cur seg : GoStr), seg ∈ splitSlashAux cur p →
      ∀ ch ∈ seg, ch ∈ cur ∨ ch ∈ p
  | [], cur, seg, hseg => by
    unfold splitSlashAux at hseg
    split at hseg
    · exact absurd hseg (List.not_mem_nil seg)
    · intro ch hch
      rw [List.mem_singleton.mp hseg] at hch
      exact Or.inl (List.mem_reverse.mp hch)
  | c :: rest, cur, seg, hseg => by
    unfold splitSlashAux at hseg
    split at hseg
    · split at hseg
      · intro ch hch
        rcases splitSlashAux_chars rest [] seg hseg ch hch with h | h
        · exact absurd h (List.not_mem_nil ch)
        · exact Or.inr (List.mem_cons_of_mem c h)
      · rcases List.mem_cons.mp hseg with h | h
        · intro ch hch
          rw [h] at hch
          exact Or.inl (List.mem_reverse.mp hch)
        · intro ch hch
          rcases splitSlashAux_chars rest [] seg h ch hch with h2 | h2
          · exact absurd h2 (List.not_mem_nil ch)
          · exact Or.inr (List.mem_cons_of_mem c h2)
    · intro ch hch
      rcases splitSlashAux_chars rest (c :: cur) seg hseg ch hch with h | h
      · rcases List.mem_cons.mp h with h2 | h2
        · exact Or.inr (h2 ▸ List.mem_cons_self c rest)
        · exact Or.inl h2
      · exact Or.inr (List.mem_cons_of_mem c h)

theorem cleanSegs_mem :
    ∀ (L : List GoStr) (rooted : Bool) (acc : List GoStr) (seg : GoStr),
      seg ∈ cleanSegs rooted acc L → seg ∈ acc ∨ seg ∈ L ∨ seg = ['.', '.']
  | [], _, acc, seg => by
    intro hseg
    unfold cleanSegs at hseg
    exact Or.inl (List.mem_reverse.mp hseg)
  | seg0 :: rest, rooted, acc, seg => by
    intro hseg
    unfold cleanSegs at hseg
    split at hseg
    · rcases cleanSegs_mem rest rooted acc seg hseg with h | h | h
      · exact Or.inl h
      · exact Or.inr (Or.inl (List.mem_cons_of_mem seg0 h))
      · exact Or.inr (Or.inr h)
    · split at hseg
      · -- seg0 = ['.','.']
        next hdd =>
        split at hseg
        · next top acc' =>
          split at hseg
          · rcases cleanSegs_mem rest rooted (seg0 :: top :: acc') seg hseg with h | h | h
            · rcases List.mem_cons.mp h with h2 | h2
              · exact Or.inr (Or.inr (h2.trans hdd))
              · exact Or.inl h2
            · exact Or.inr (Or.inl (List.mem_cons_of_mem seg0 h))
            · exact Or.inr (Or.inr h)
          · rcases cleanSegs_mem rest rooted acc' seg hseg with h | h | h
            · exact Or.inl (List.mem_cons_of_mem top h)
            · exact Or.inr (Or.inl (List.mem_cons_of_mem seg0 h))
            · exact Or.inr (Or.inr h)
        · split at hseg
          · rcases cleanSegs_mem rest rooted [] seg hseg with h | h | h
            · exact absurd h (List.not_mem_nil seg)
            · exact Or.inr (Or.inl (List.mem_cons_of_mem seg0 h))
            · exact Or.inr (Or.inr h)
          · rcases cleanSegs_mem rest rooted [seg0] seg hseg with h | h | h
            · exact Or.inr (Or.inr ((List.mem_singleton.mp h).trans hdd))
            · exact Or.inr (Or.inl (List.mem_cons_of_mem seg0 h))
            · exact Or.inr (Or.inr h)
      · rcases cleanSegs_mem rest rooted (seg0 :: acc) seg hseg with h | h | h
        · rcases List.mem_cons.mp h with h2 | h2
          · exact Or.inr (Or.inl (h2 ▸ List.mem_cons_self seg0 rest))
          · exact Or.inl h2
        · exact Or.inr (Or.inl (List.mem_cons_of_mem seg0 h))
        · exact Or.inr (Or.inr h)

theorem intercalateSlash_mem :
    ∀ (segs : List GoStr) (ch : Char), ch ∈ intercalateSlash segs →
      ch = '/' ∨ ∃ seg, seg ∈ segs ∧ ch ∈ seg
  | [], ch => by
    intro h
    exact absurd h (List.not_mem_nil ch)
  | [s], ch => by
    intro h
    exact Or.inr ⟨s, List.mem_singleton.mpr rfl, h⟩
  | s :: s' :: rest, ch => by
    intro h
    rcases List.mem_append.mp h with h1 | h1
    · exact Or.inr ⟨s, List.mem_cons_self s _, h1⟩
    · rcases List.mem_cons.mp h1 with h2 | h2
      · exact Or.inl h2
      · rcases intercalateSlash_mem (s' :: rest) ch h2 with h3 | ⟨seg, hs, hc⟩
        · exact Or.inl h3
        · exact Or.inr ⟨seg, List.mem_cons_of_mem s hs, hc⟩

theorem no_newline_out (p front : GoStr) (h : '\n' ∉ p) (hf : '\n' ∉ front)
    (rooted : Bool) :
    '\n' ∉ front ++ intercalateSlash (cleanSegs rooted [] (splitSlashAux [] p)) := by
  intro hmem
  rcases List.mem_append.mp hmem with hm | hm
  · exact hf hm
  · rcases intercalateSlash_mem _ _ hm with h1 | ⟨seg, hs, hc⟩
    · exact absurd h1 (by decide)
    · rcases cleanSegs_mem _ _ _ _ hs with h2 | h2 | h2
      · exact absurd h2 (List.not_mem_nil seg)
      · rcases splitSlashAux_chars p [] seg h2 '\n' hc with h3 | h3
        · exact absurd h3 (List.not_mem_nil _)
        · exact h h3
      · rw [h2] at hc
        exact absurd hc (by decide)

theorem pathClean_no_newline (p : GoStr) (h : '\n' ∉ p) : '\n' ∉ pathClean p := by
  unfold pathClean
  split
  · decide
  · dsimp only
    split <;> split
    · decide
    · exact no_newline_out p ['/'] h (by decide) _
    · decide
    · exact no_newline_out p [] h (by decide) _

theorem pathClean_rooted (p : GoStr) (h : p.head? = some '/') :
    pathClean p ≠ [] ∧ (pathClean p).head? = some '/' := by
  have hne : p ≠ [] := by
    intro habs
    rw [habs] at h
    simp at h
  unfold pathClean
  rw [if_neg hne]
  dsimp only
  rw [if_pos h]
  rw [if_neg (by simp)]
  simp

theorem pathJoin_rooted_props (a b : GoStr) (ha : a.head? = some '/')
    (hna : '\n' ∉ a) (hnb : '\n' ∉ b) :
    (pathJoin a b).head? = some '/' ∧ '\n' ∉ pathJoin a b ∧ pathJoin a b ≠ [] := by
  rcases a with _ | ⟨c, t⟩
  · simp at ha
  · have hc : c = '/' := by simpa using ha
    subst hc
    unfold pathJoin
    rw [if_neg (by simp), if_neg (by simp)]
    have hhead : (('/' :: t) ++ '/' :: b).head? = some '/' := by simp
    have hnl : '\n' ∉ ('/' :: t) ++ '/' :: b := by
      intro habs
      rcases List.mem_append.mp habs with hm | hm
      · exact hna hm
      · rcases List.mem_cons.mp hm with hm2 | hm2
        · exact absurd hm2 (by decide)
        · exact hnb hm2
    exact ⟨(pathClean_rooted _ hhead).2, pathClean_no_newline _ hnl,
      (pathClean_rooted _ hhead).1⟩

theorem tailPart_rooted (t : GoStr) (hn : '\n' ∉ '/' :: t) :
    tailPart ('/' :: t) = some ('/' :: t) := by
  unfold tailPart
  rw [if_neg hn]
  rfl

theorem hostAndPath_rooted (t : GoStr) (hn : '\n' ∉ '/' :: t) :
    hostAndPath ('/' :: t) = some ([], '/' :: t) := by
  unfold hostAndPath
  show (match tailPart ('/' :: t) with
    | some tl => some (([] : GoStr), tl)
    | none => none) = some ([], '/' :: t)
  rw [tailPart_rooted t hn]

theorem patternParts_rooted (s : GoStr) (h : s.head? = some '/') (hn : '\n' ∉ s) :
    patternParts s = ([], [], s) := by
  rcases s with _ | ⟨c, t⟩
  · simp at h
  · have hc : c = '/' := by simpa using h
    subst hc
    unfold patternParts
    rw [if_pos (show List.takeWhile isWordChar ('/' :: t) = [] from rfl)]
    unfold patternPartsNoMethod
    rw [hostAndPath_rooted t hn]

def groupP (pattern : GoStr) (r : GoRoute) : Bool :=
  !r.Name.isEmpty && !(nameVal (pathJoin pattern r.Match)).isEmpty

def groupKey (name : GoStr) (r : GoRoute) : GoStr :=
  toLowerStr (name ++ '/' :: r.Name)

def groupVal (pattern : GoStr) (r : GoRoute) : GoStr :=
  nameVal (pathJoin pattern r.Match)

theorem groupNameStep_routeNames (pattern name : GoStr) (acc : Server) (r : GoRoute) :
    (groupNameStep pattern name acc r).routeNames
      = consIf (groupP pattern) (groupKey name) (groupVal pattern) acc.routeNames r := by
  unfold groupNameStep consIf Server.addRouteName groupP groupKey groupVal nameVal
  by_cases h1 : r.Name = []
  · simp [h1]
  · rw [if_neg h1]
    by_cases h2 : (patternParts (pathJoin pattern r.Match)).2.1 = []
        ∧ (patternParts (pathJoin pattern r.Match)).2.2 = []
    · rw [if_pos h2]
      simp [List.isEmpty_iff, h1, h2.1, h2.2]
    · rw [if_neg h2]
      have hne : (patternParts (pathJoin pattern r.Match)).2.1
          ++ (patternParts (pathJoin pattern r.Match)).2.2 ≠ [] := by
        intro habs
        exact h2 (List.append_eq_nil.mp habs)
      simp [List.isEmpty_iff, h1, hne]

theorem foldl_groupNameStep_routeNames (pattern name : GoStr) :
    ∀ (rs : List GoRoute) (acc : Server),
      (rs.foldl (groupNameStep pattern name) acc).routeNames
        = rs.foldl (consIf (groupP pattern) (groupKey name) (groupVal pattern))
            acc.routeNames
  | [], _ => rfl
  | x :: rest, acc => by
    simp only [List.foldl_cons]
    rw [foldl_groupNameStep_routeNames pattern name rest, groupNameStep_routeNames]

/-- C10: when `Group(pattern, "", fn)` panics because `fn` registered a
named sub-route, the parent's name index has already been mutated
before the panic: every named sub-route is reachable under the
lower-cased key `"/<subname>"` with its joined path as value.  The
hypotheses restrict to well-formed inputs: a rooted group pattern and
newline-free strings (otherwise the joined pattern would not parse and
would not be indexed at all). -/
theorem C10_group_panic_after_name_index_mutation
    (s : Server) (pattern : GoStr) (sub : Server) (r : GoRoute)
    (hmem : r ∈ sub.routes) (hname : r.Name ≠ [])
    (hroot : pattern.head? = some '/')
    (hnp : '\n' ∉ pattern) (hnm : '\n' ∉ r.Match)
    (huniq : ∀ r' ∈ sub.routes, r'.Name ≠ [] →
      toLowerStr r'.Name = toLowerStr r.Name → r' = r) :
    ((s.group pattern [] sub).2).isSome = true
    ∧ lookupStr (toLowerStr ('/' :: r.Name)) ((s.group pattern [] sub).1).routeNames
        = some (pathJoin pattern r.Match) := by
  have hjoin := pathJoin_rooted_props pattern r.Match hroot hnp hnm
  have hval : nameVal (pathJoin pattern r.Match) = pathJoin pattern r.Match := by
    unfold nameVal
    rw [patternParts_rooted _ hjoin.1 hjoin.2.1]
    rfl
  have hcond : (sub.routes.any (fun x => ¬ x.Name.isEmpty)) = true :=
    List.any_eq_true.mpr ⟨r, hmem, by simp [List.isEmpty_iff, hname]⟩
  unfold Server.group
  rw [if_pos ⟨hcond, rfl⟩]
  refine ⟨rfl, ?_⟩
  dsimp only
  rw [foldl_groupNameStep_routeNames]
  have hkey : toLowerStr ('/' :: r.Name) = groupKey [] r := rfl
  have hp : groupP pattern r = true := by
    simp [groupP, List.isEmpty_iff, hname, hval, hjoin.2.2]
  rw [hkey, ← hval]
  rw [show nameVal (pathJoin pattern r.Match) = groupVal pattern r from rfl]
  apply lookup_foldl_consIf_of_mem (groupP pattern) (groupKey []) (groupVal pattern)
    sub.routes s.routeNames r hmem hp
  intro r' h1 h2 h3
  have hn' : r'.Name ≠ [] := by
    have := (Bool.and_eq_true _ _).mp h2 |>.1
    simpa [List.isEmpty_iff] using this
  have hlow : toLowerStr r'.Name = toLowerStr r.Name := by
    have h3' : toLowerStr ([] ++ '/' :: r'.Name) = toLowerStr ([] ++ '/' :: r.Name) := h3
    simpa [toLowerStr] using h3'
  rw [huniq r' h1 hn' hlow]

def c10sub : Server :=
  (Server.init []).handle (strL "/items/{itemId}") (GoHandler.fn 1) (strL "item") []

def c10route : GoRoute :=
  { Match := strL "/items/{itemId}", Handler := GoHandler.fn 1, Name := strL "item" }

/-- C10 witness: a group mounted at `"/catalogs"` with an empty name
and one named sub-route. -/
theorem C10_group_panic_after_name_index_mutation_witness :
    (((Server.init []).group (strL "/catalogs") [] c10sub).2).isSome = true
    ∧ lookupStr (toLowerStr ('/' :: c10route.Name))
        ((((Server.init []).group (strL "/catalogs") [] c10sub)).1).routeNames
        = some (pathJoin (strL "/catalogs") c10route.Match) :=
  C10_group_panic_after_name_index_mutation (Server.init []) (strL "/catalogs")
    c10sub c10route (List.mem_singleton.mpr rfl) (by decide) (by decide)
    (by decide) (by decide)
    (fun r' h1 _ _ => List.mem_singleton.mp h1)
